import Mathlib

/-!
Verification of the cassfs filesystem engine against its specification.

The definitions below are a shallow embedding of the Go sources:

* `cass/cassfile.go` — the open-file record (`CassFileData`) and the
  handle operations `Write`, `Read`, `Chmod`, `Flush`, `Truncate`;
* the store (`cstore`) — `WriteFileData`, `ReadData`, `UpdateFile`,
  `WriteMetadata`, `GetFiledata`, `FindDir`, `splitPath`, and the
  reference-counter updates `incrementDataRef` / `decrementDataRef`;
* the filesystem facade — `GetAttr` and the path-level `Chown`.

Modelling conventions:

* Bytes are `Nat` (the byte range plays no role in any verified claim);
  Go byte slices are `List Nat` with length = capacity, so a Go slice
  expression `b[lo:hi]` is defined exactly when `lo ≤ hi ≤ b.length`.
* SHA-512 (`ShaSum`) is treated as an opaque pure function: every
  definition that hashes takes `sha : Bytes → Bytes` as a parameter and
  the theorems hold for every such function.
* The Cassandra session is replaced by in-memory tables inside
  `CassState`.  The `filesystem` table is an association list keyed by
  `(directory, name)` — `cust_id` and `environment` are fixed for a
  session and therefore dropped.  A key can also be mapped to
  `FsVal.dbError`, which models a row whose read fails with a
  transient (non-NotFound) database error; an absent key is NotFound.
  Parameterized INSERT/UPDATE statements always succeed in the model,
  so the only fallible operations are SELECTs.
* Rows of the `filedata` table are kept in insertion order; the code
  only ever appends them with strictly increasing `location`, so list
  order coincides with the clustering order (`location` ascending) in
  which the real iterator yields them.
* Counter updates (`UPDATE fileref SET refs = refs ± 1`) are recorded
  in an operation trace `refTrace`, the direct image of "the query was
  issued".
* `json.Marshal`/`json.Unmarshal` of metadata are identities (the
  metadata blob is stored structurally); the Go code ignores the
  unmarshal error anyway.
* Paths are ASCII strings, so Go byte indices coincide with character
  indices; Go's `strings.Split`, `strings.LastIndex` and the `/`
  suffix tests are re-implemented structurally below.
-/

/-- Bytes of the Go code are modelled as natural numbers. -/
abbrev Bytes := List Nat

/-- Blocksize constant of the store: `const BLOBSIZE = 1024 * 1024`. -/
def BLOBSIZE : Nat := 1024 * 1024

/-- Row of the `filedata` table: `(hash, location, data)`. -/
structure FdRow where
  hash : Bytes
  location : Nat
  data : Bytes
deriving DecidableEq

/-- Errors the modelled database session can report on a SELECT:
`gocql.ErrNotFound` or any other error. -/
inductive DbErr where
  | notFound
  | other
deriving DecidableEq

/-- One reference-counter update issued against the `fileref` table. -/
inductive RefOp where
  | inc : Bytes → RefOp
  | dec : Bytes → RefOp
deriving DecidableEq

/-- Subset of `fuse.Attr` read or written by the verified operations:
`Mode`, `Size` and `Owner.Uid` / `Owner.Gid` (the remaining fields are
never inspected by the claims). -/
structure Attr where
  mode : Nat
  size : Nat
  uid : Nat
  gid : Nat
deriving DecidableEq

/-- Go struct `CassMetadata`: the serialized metadata blob. -/
structure CassMetadata where
  attr : Attr
  xattr : List (String × String)
deriving DecidableEq

/-- Go struct `CassFsMetadata`: a metadata-cache entry. -/
structure CassFsMetadata where
  metadata : CassMetadata
  timestamp : Nat
  hash : Bytes
deriving DecidableEq

/-- Value stored under a key of the `filesystem` table.  `found` is a
real row; `dbError` models a row whose SELECT fails with a transient
non-NotFound error (an absent key is the NotFound case). -/
inductive FsVal where
  | found : Bytes → CassMetadata → FsVal
  | dbError : FsVal
deriving DecidableEq

/-- State of one `Cass` store session: the three tables (the `fileref`
counter table appears as the trace of updates issued against it), the
two caches, and the clock/TTL used by the metadata cache. -/
structure CassState where
  fs : List ((String × String) × FsVal)
  filedata : List FdRow
  uuidCache : List (String × String)
  fileCache : List (String × CassFsMetadata)
  refTrace : List RefOp
  fcacheDuration : Nat
  now : Nat
deriving DecidableEq

/-- Go struct `CassFileData`: the shared open-file record.  The `Fs`
back-pointer and the handle reference count are dropped: the store
state is passed explicitly and no verified claim reads `Refs`. -/
structure CassFileData where
  name : String
  data : Bytes
  hash : Bytes
  dirty : Bool
  attr : Attr
deriving DecidableEq

/-- Go struct `CassFsOptions`: the mount options (root owner and mode). -/
structure CassFsOptions where
  uid : Nat
  gid : Nat
  mode : Nat
deriving DecidableEq

/-- Kernel status values returned by the verified facade and handle
operations. -/
inductive Status where
  | OK
  | ENOENT
  | EIO
  | EINVAL
deriving DecidableEq

/-- Association-list lookup modelling a Go map read (first match wins;
insertion is by consing, so the newest binding shadows older ones). -/
def lookupA {α β : Type} [DecidableEq α] : List (α × β) → α → Option β
  | [], _ => none
  | (k, v) :: t, a => if k = a then some v else lookupA t a

/-- Association-list deletion modelling Go `delete(m, k)`: every
binding of the key is removed. -/
def eraseA {α β : Type} [DecidableEq α] (l : List (α × β)) (a : α) : List (α × β) :=
  l.filter (fun kv => decide (kv.1 ≠ a))

/-- File-type mask `S_IFMT` of the mode word. -/
def S_IFMT : Nat := 0o170000

/-- Directory type bit `fuse.S_IFDIR`. -/
def S_IFDIR : Nat := 0o40000

/-- Regular-file type bit `fuse.S_IFREG`. -/
def S_IFREG : Nat := 0o100000

/-! ## Content-address layer: WriteFileData / ReadData -/

/-- Body of `WriteFileData`'s insertion loop, with explicit fuel so the
recursion is structural.  One step inserts the row
`(hash, start, data[start:end])`, then advances exactly as the Go code
does: `start += BLOBSIZE + 1`, breaking when `start > len(data)`, and
`end` moves to `len(data)` once `end + BLOBSIZE + 1` overshoots.  The
fuel-0 arm is unreachable from `writeLoop` (see `writeLoopF_fuel`). -/
def writeLoopF (h data : Bytes) : Nat → Nat → Nat → List FdRow
  | 0, _, _ => []
  | fuel + 1, start, endv =>
    let row : FdRow := ⟨h, start, (data.drop start).take (endv - start)⟩
    if start + (BLOBSIZE + 1) > data.length then [row]
    else
      row :: writeLoopF h data fuel (start + (BLOBSIZE + 1))
        (if endv + (BLOBSIZE + 1) > data.length then data.length else endv + (BLOBSIZE + 1))

/-- Insertion loop of `WriteFileData`.  `data.length + 1` units of fuel
always suffice because `start` grows by `BLOBSIZE + 1 ≥ 1` per step and
the loop stops once `start` passes `data.length`. -/
def writeLoop (h data : Bytes) (start endv : Nat) : List FdRow :=
  writeLoopF h data (data.length + 1) start endv

/-- Go method `(c *Cass) WriteFileData` (the `write_body` of the spec):
hash the whole body, probe the `filedata` table for any row with that
hash, return early on a hit, otherwise run the insertion loop starting
from `start = 0`, `end = min(BLOBSIZE, len(data))`.  The table is
passed and returned explicitly; the returned hash is the first
component. -/
def Cass.WriteFileData (sha : Bytes → Bytes) (filedata : List FdRow) (data : Bytes) :
    Bytes × List FdRow :=
  let endv := if BLOBSIZE > data.length then data.length else BLOBSIZE
  let hash := sha data
  if filedata.any (fun r => r.hash == hash) then (hash, filedata)
  else (hash, filedata ++ writeLoop hash data 0 endv)

/-- Go method `(c *Cass) ReadData` (the `read_body` of the spec):
iterate the `filedata` rows with the given hash and concatenate their
`data` columns into the buffer. -/
def Cass.ReadData (filedata : List FdRow) (hash : Bytes) : Bytes :=
  (filedata.filter (fun r => r.hash == hash)).foldl (fun buffer r => buffer ++ r.data) []

/-- Concrete body one byte longer than `BLOBSIZE`, the smallest length
on which the chunking loop loses data. -/
def bigInput : Bytes := List.replicate (BLOBSIZE + 1) 0

/-! ## Open-file handle operations (cass/cassfile.go) -/

/-- Go slice expression `l[lo:hi]`: defined (as `some`) exactly when
`lo ≤ hi ≤ l.length`; out of those bounds Go panics, modelled as
`none`. -/
def goSlice (l : Bytes) (lo hi : Nat) : Option Bytes :=
  if lo ≤ hi ∧ hi ≤ l.length then some ((l.drop lo).take (hi - lo)) else none

/-- Go method `(c *CassFileHandle) Write(data, offset)`: when the
offset lies past the end of the body, zero-fill the gap, append the
data and return at once; otherwise set dirty, replace `body[offset:]`
by the data and refresh `attr.Size`.  Returns the record, the byte
count and the status. -/
def CassFileHandle.Write (fd : CassFileData) (d : Bytes) (offset : Nat) :
    CassFileData × Nat × Status :=
  if offset > fd.data.length then
    ({ fd with data := (fd.data ++ List.replicate (offset - fd.data.length) 0) ++ d },
     d.length, Status.OK)
  else
    let newData := fd.data.take offset ++ d
    ({ fd with dirty := true, data := newData,
               attr := { fd.attr with size := newData.length } },
     d.length, Status.OK)

/-- Go method `(c *CassFileHandle) Read(buf, off)`: clamp the end of
the requested window to the body length and slice `data[off:end]`.
Only the buffer length matters, so the buffer is passed as `bufLen`.
The slice panics (is `none`) exactly when `off` exceeds the body. -/
def CassFileHandle.Read (fd : CassFileData) (bufLen off : Nat) : Option Bytes :=
  let endv := if off + bufLen > fd.data.length then fd.data.length else off + bufLen
  goSlice fd.data off endv

/-- Go method `(c *CassFileHandle) Truncate(size)`: shrink the body to
`data[:size]`.  The slice panics (is `none`) when `size` exceeds the
body length. -/
def CassFileHandle.Truncate (fd : CassFileData) (size : Nat) :
    Option (CassFileData × Status) :=
  (goSlice fd.data 0 size).map (fun d => ({ fd with data := d }, Status.OK))

/-- Go method `(c *CassFileHandle) Chmod(mod)`: set the mode to
`(old & 0o7000) | mod` and mark the record dirty when that changed it.
No other state is touched (in particular nothing is flushed). -/
def CassFileHandle.Chmod (fd : CassFileData) (mod : Nat) : CassFileData × Status :=
  let old_mode := fd.attr.mode
  let fd1 := { fd with attr := { fd.attr with mode := Nat.land fd.attr.mode 0o7000 ||| mod } }
  let fd2 := if fd1.attr.mode ≠ old_mode then { fd1 with dirty := true } else fd1
  (fd2, Status.OK)

/-- Record of a freshly created empty file, as `Create` builds it via
`NewFileData(name, []byte{}, []byte{})` with attribute
`S_IFREG | 0o644`: empty body, empty hash, not dirty, Size 0. -/
def sparseFile : CassFileData :=
  { name := "s.bin", data := [], hash := [], dirty := false,
    attr := { mode := S_IFREG + 0o644, size := 0, uid := 0, gid := 0 } }

/-- Record of an existing regular file `rw-r--r--` used as the Chmod
counterexample input. -/
def chmodFile : CassFileData :=
  { name := "a.txt", data := [], hash := [], dirty := false,
    attr := { mode := 0o100644, size := 0, uid := 0, gid := 0 } }

/-! ## Path utilities and the directory UUID resolver -/

/-- Helper for `goSplit`: accumulates the current field in reverse. -/
def goSplitAux (sep : Char) : List Char → List Char → List String
  | [], acc => [String.mk acc.reverse]
  | c :: t, acc =>
    if c = sep then String.mk acc.reverse :: goSplitAux sep t []
    else goSplitAux sep t (c :: acc)

/-- Go `strings.Split(s, sep)` for a one-character separator on ASCII
strings; in particular `goSplit "" sep = [""]`, as in Go. -/
def goSplit (s : String) (sep : Char) : List String := goSplitAux sep s.data []

/-- Helper for `lastSlash`: tracks the index of the latest slash. -/
def lastSlashAux : List Char → Nat → Option Nat → Option Nat
  | [], _, acc => acc
  | c :: t, i, acc => lastSlashAux t (i + 1) (if c = '/' then some i else acc)

/-- Go `strings.LastIndex(s, "/")` on ASCII strings; `none` stands for
Go's -1. -/
def lastSlash (s : String) : Option Nat := lastSlashAux s.data 0 none

/-- Go `strings.HasSuffix(path, "/")`. -/
def endsWithSlash (s : String) : Bool := s.data.getLast? = some '/'

/-- Go test for a leading slash on a path. -/
def startsWithSlash (s : String) : Bool := s.data.head? = some '/'

/-- Composition of `gocql.UUIDFromBytes` and `UUID.String()`: parsing
fails (with a non-NotFound error) unless the value is 16 bytes long;
the string rendering is a fixed function of the bytes. -/
def uuidFromBytes (b : Bytes) : Except DbErr String :=
  if b.length = 16 then Except.ok (toString b) else Except.error DbErr.other

/-- Query `SELECT hash FROM filesystem WHERE directory = ? AND
name = ?` with its Scan outcome. -/
def Cass.queryFsHash (s : CassState) (dir name : String) : Except DbErr Bytes :=
  match lookupA s.fs (dir, name) with
  | some (FsVal.found h _) => Except.ok h
  | some FsVal.dbError => Except.error DbErr.other
  | none => Except.error DbErr.notFound

/-- Per-segment walk of `FindDir` over the tail of the split path:
each step resolves one name under the current parent UUID. -/
def Cass.findDirLoop (s : CassState) : String → List String → Except DbErr String
  | parent, [] => Except.ok parent
  | parent, d :: rest =>
    match Cass.queryFsHash s parent d with
    | Except.error e => Except.error e
    | Except.ok bytes =>
      match uuidFromBytes bytes with
      | Except.error e => Except.error e
      | Except.ok p => Cass.findDirLoop s p rest

/-- Go method `(c *Cass) FindDir(dir)` (the spec's `find_dir`): serve
from the positive UUID cache when possible; otherwise split the path
on slashes, bootstrap by resolving the first segment under the empty
parent, walk the remaining segments, and cache the terminal UUID on
success.  There is no special case for the empty path: it looks up
the row `(directory = "", name = "")`. -/
def Cass.FindDir (s : CassState) (dir : String) : Except DbErr String × CassState :=
  match lookupA s.uuidCache dir with
  | some entry => (Except.ok entry, s)
  | none =>
    let paths := goSplit dir '/'
    match Cass.queryFsHash s "" (paths.headD "") with
    | Except.error e => (Except.error e, s)
    | Except.ok pb =>
      match uuidFromBytes pb with
      | Except.error e => (Except.error e, s)
      | Except.ok parent =>
        match Cass.findDirLoop s parent paths.tail with
        | Except.error e => (Except.error e, s)
        | Except.ok u => (Except.ok u, { s with uuidCache := (dir, u) :: s.uuidCache })

/-- Go method `(c *Cass) splitPath(path)`: strip one trailing slash;
when the last slash sits at a positive index, resolve the part before
it through `FindDir` (its error is logged and dropped, leaving the
parent `""`) and return the tail after the slash; otherwise strip a
leading slash if any and use the empty parent. -/
def Cass.splitPath (s : CassState) (path : String) : (String × String) × CassState :=
  let p1 := if endsWithSlash path then String.mk (path.data.take (path.data.length - 1)) else path
  match lastSlash p1 with
  | some idx =>
    if 0 < idx then
      let fd := Cass.FindDir s (String.mk (p1.data.take idx))
      let parent := match fd.1 with | Except.ok u => u | Except.error _ => ""
      ((parent, String.mk (p1.data.drop (idx + 1))), fd.2)
    else
      if startsWithSlash p1 then (("", String.mk (p1.data.drop 1)), s)
      else (("", p1), s)
  | none =>
    if startsWithSlash p1 then (("", String.mk (p1.data.drop 1)), s)
    else (("", p1), s)

/-! ## Metadata store -/

/-- Query `SELECT hash, metadata FROM filesystem WHERE directory = ?
AND name = ?` with its Scan outcome. -/
def Cass.queryFsRow (s : CassState) (dir name : String) :
    Except DbErr (Bytes × CassMetadata) :=
  match lookupA s.fs (dir, name) with
  | some (FsVal.found h m) => Except.ok (h, m)
  | some FsVal.dbError => Except.error DbErr.other
  | none => Except.error DbErr.notFound

/-- Query-and-cache tail of `GetFiledata` (the code after the cache
check): SELECT the row, assemble the record with the current time as
its timestamp, insert it into the metadata cache, return it. -/
def Cass.getFiledataFetch (s : CassState) (pf : String × String) (name : String) :
    Except DbErr CassFsMetadata × CassState :=
  match Cass.queryFsRow s pf.1 pf.2 with
  | Except.error e => (Except.error e, s)
  | Except.ok hm =>
    let ret : CassFsMetadata := ⟨hm.2, s.now, hm.1⟩
    (Except.ok ret, { s with fileCache := (name, ret) :: s.fileCache })

/-- Go method `(c *Cass) GetFiledata(name)` (the spec's
`get_filedata`): split the path, serve a fresh cache entry
(`now - timestamp < FcacheDuration`), evict a stale one, and on every
cache miss fetch the row from the database. -/
def Cass.GetFiledata (s : CassState) (name : String) :
    Except DbErr CassFsMetadata × CassState :=
  let sp := Cass.splitPath s name
  match lookupA sp.2.fileCache name with
  | some entry =>
    if sp.2.now - entry.timestamp < sp.2.fcacheDuration then (Except.ok entry, sp.2)
    else Cass.getFiledataFetch { sp.2 with fileCache := eraseA sp.2.fileCache name } sp.1 name
  | none => Cass.getFiledataFetch sp.2 sp.1 name

/-- Cassandra `UPDATE filesystem SET hash = ?, metadata = ?` at a key:
an upsert, rewriting the row when the key is present and creating it
otherwise. -/
def upsertFs : List ((String × String) × FsVal) → (String × String) → Bytes → CassMetadata →
    List ((String × String) × FsVal)
  | [], k, h, m => [(k, FsVal.found h m)]
  | (k0, v) :: t, k, h, m =>
    if k0 = k then (k, FsVal.found h m) :: t else (k0, v) :: upsertFs t k h m

/-- Cassandra `UPDATE filesystem SET metadata = ?` at a key: rewrites
only the metadata column; an absent row is created with an empty
hash. -/
def updateFsMeta : List ((String × String) × FsVal) → (String × String) → CassMetadata →
    List ((String × String) × FsVal)
  | [], k, m => [(k, FsVal.found [] m)]
  | (k0, v) :: t, k, m =>
    if k0 = k then
      (k, match v with
          | FsVal.found h _ => FsVal.found h m
          | FsVal.dbError => FsVal.found [] m) :: t
    else (k0, v) :: updateFsMeta t k m

/-- Go method `(c *Cass) WriteMetadata(path, meta)` (the spec's
`write_metadata`): split the path, evict the path from the metadata
cache when present, and UPDATE the row's metadata column. -/
def Cass.WriteMetadata (s : CassState) (path : String) (meta : CassMetadata) : CassState :=
  let sp := Cass.splitPath s path
  let s2 := if (lookupA sp.2.fileCache path).isSome
            then { sp.2 with fileCache := eraseA sp.2.fileCache path } else sp.2
  { s2 with fs := updateFsMeta s2.fs sp.1 meta }

/-- Go method `(c *Cass) UpdateFile(f)` (the spec's `update_file`):
write the body through `WriteFileData` (new hash), replace `f.Hash`,
UPDATE the namespace row's hash and metadata, increment the new
hash's counter, decrement the prior hash's counter whenever the prior
hash is non-empty, and finally evict the path from the metadata
cache. -/
def Cass.UpdateFile (sha : Bytes → Bytes) (s : CassState) (f : CassFileData) :
    CassFileData × CassState :=
  let sp := Cass.splitPath s f.name
  let wr := Cass.WriteFileData sha sp.2.filedata f.data
  let old_hash := f.hash
  let f1 := { f with hash := wr.1 }
  let s2 := { sp.2 with filedata := wr.2, fs := upsertFs sp.2.fs sp.1 wr.1 ⟨f.attr, []⟩ }
  let s3 := { s2 with refTrace := s2.refTrace ++ [RefOp.inc wr.1] }
  let s4 := if old_hash.length > 0 then { s3 with refTrace := s3.refTrace ++ [RefOp.dec old_hash] }
            else s3
  let s5 := if (lookupA s4.fileCache f.name).isSome
            then { s4 with fileCache := eraseA s4.fileCache f.name } else s4
  (f1, s5)

/-- Go method `(c *CassFs) FlushFile(fd)`: delegate to the store's
`UpdateFile`. -/
def CassFs.FlushFile (sha : Bytes → Bytes) (s : CassState) (fd : CassFileData) :
    CassFileData × CassState :=
  Cass.UpdateFile sha s fd

/-- Go method `(c *CassFileHandle) Flush()`: a no-op on a clean
record; on a dirty record run `FlushFile` and report OK (writes in
the model cannot fail, matching the claim's "successful Flush"). -/
def CassFileHandle.Flush (sha : Bytes → Bytes) (s : CassState) (fd : CassFileData) :
    Status × CassFileData × CassState :=
  if fd.dirty = false then (Status.OK, fd, s)
  else
    let r := CassFs.FlushFile sha s fd
    (Status.OK, r.1, r.2)

/-! ## Filesystem facade -/

/-- Go method `(c *CassFs) GetAttr(name)`: the empty (root) path gets
an attribute synthesized from the mount options without touching the
store; every other path consults `GetFiledata`, mapping NotFound to
ENOENT and any other error to EIO. -/
def CassFs.GetAttr (opts : CassFsOptions) (s : CassState) (name : String) :
    (Option Attr × Status) × CassState :=
  if name = "" then
    ((some { mode := S_IFDIR ||| opts.mode, size := 0, uid := opts.uid, gid := opts.gid },
      Status.OK), s)
  else
    match Cass.GetFiledata s name with
    | (Except.error DbErr.notFound, s1) => ((none, Status.ENOENT), s1)
    | (Except.error _, s1) => ((none, Status.EIO), s1)
    | (Except.ok m, s1) => ((some m.metadata.attr, Status.OK), s1)

/-- Go conversion `int32(u)` of a `uint32` value. -/
def goInt32 (u : Nat) : Int :=
  if u < 2 ^ 31 then (u : Int) else (u : Int) - 2 ^ 32

/-- Go method `(c *CassFs) Chown(name, uid, gid)` (path level): the
root path updates the mount options in place; any other path loads
the metadata (every error, including NotFound, becomes EIO),
overwrites uid and gid only where `int32(value) > 0`, and persists
the mutated metadata with `WriteMetadata`. -/
def CassFs.Chown (opts : CassFsOptions) (s : CassState) (name : String) (uid gid : Nat) :
    Status × CassFsOptions × CassState :=
  if name = "" then (Status.OK, { opts with uid := uid, gid := gid }, s)
  else
    match Cass.GetFiledata s name with
    | (Except.error _, s1) => (Status.EIO, opts, s1)
    | (Except.ok meta, s1) =>
      let a0 := meta.metadata.attr
      let a1 := if 0 < goInt32 uid then { a0 with uid := uid } else a0
      let a2 := if 0 < goInt32 gid then { a1 with gid := gid } else a1
      (Status.OK, opts, Cass.WriteMetadata s1 name { meta.metadata with attr := a2 })

/-! ## Concrete inputs for counterexamples and witnesses -/

/-- Fixed stand-in hash function for concrete evaluations. -/
def sha1 : Bytes → Bytes := fun _ => [1]

/-- Empty store state. -/
def st0 : CassState :=
  { fs := [], filedata := [], uuidCache := [], fileCache := [], refTrace := [],
    fcacheDuration := 60, now := 0 }

/-- Dirty open-file record whose buffered body hashes (under `sha1`)
to its prior hash `[1]`. -/
def dirtyFd : CassFileData :=
  { name := "f", data := [2], hash := [1], dirty := true,
    attr := { mode := 0o100644, size := 1, uid := 0, gid := 0 } }

/-- Mount options used in concrete runs. -/
def opts0 : CassFsOptions := { uid := 0, gid := 0, mode := 0o755 }

/-- Attribute of the stored file owned by uid 5 / gid 7. -/
def attr57 : Attr := { mode := 0o100644, size := 0, uid := 5, gid := 7 }

/-- Store holding one file "f" (under the root directory) owned by
uid 5 / gid 7. -/
def st1 : CassState :=
  { fs := [(("", "f"), FsVal.found [] ⟨attr57, []⟩)], filedata := [], uuidCache := [],
    fileCache := [], refTrace := [], fcacheDuration := 60, now := 0 }

/-- Store where reading the row of "f" fails with a transient
(non-NotFound) database error. -/
def stErr : CassState :=
  { fs := [(("", "f"), FsVal.dbError)], filedata := [], uuidCache := [],
    fileCache := [], refTrace := [], fcacheDuration := 60, now := 0 }

/-- Store whose UUID cache already maps "d" to "u". -/
def stCache : CassState :=
  { fs := [], filedata := [], uuidCache := [("d", "u")], fileCache := [], refTrace := [],
    fcacheDuration := 60, now := 0 }

/-! ## Helper lemmas -/

/-- Fuel adequacy: as long as the fuel exceeds the remaining distance,
the result does not depend on it.  In particular `writeLoop` computes
the limit of the iteration, i.e. the Go loop. -/
theorem writeLoopF_fuel (h data : Bytes) :
    ∀ f g start endv, data.length + 1 ≤ f + start → data.length + 1 ≤ g + start →
      1 ≤ f → 1 ≤ g →
      writeLoopF h data f start endv = writeLoopF h data g start endv := by
  intro f
  induction f with
  | zero => intro g start endv _ _ hf _; omega
  | succ f ih =>
    intro g start endv hfd hgd _ hg
    match g, hg with
    | g + 1, _ =>
      simp only [writeLoopF]
      by_cases hc : start + (BLOBSIZE + 1) > data.length
      · simp [hc]
      · have hf1 : 1 ≤ f := by omega
        have hg1 : 1 ≤ g := by omega
        simp only [hc, if_false]
        rw [ih g (start + (BLOBSIZE + 1)) _ (by omega) (by omega) hf1 hg1]

/-- WriteFileData always returns the hash of the whole body, in both
the probe-hit and the insert branch. -/
theorem writeFileData_fst (sha : Bytes → Bytes) (t : List FdRow) (b : Bytes) :
    (Cass.WriteFileData sha t b).1 = sha b := by
  simp only [Cass.WriteFileData]
  split <;> rfl

/-- A probe hit returns the hash with the table untouched. -/
theorem writeFileData_probe_hit (sha : Bytes → Bytes) (t : List FdRow) (b : Bytes)
    (h : t.any (fun r => r.hash == sha b) = true) :
    Cass.WriteFileData sha t b = (sha b, t) := by
  simp [Cass.WriteFileData, h]

/-- The insertion loop always emits at least one row carrying the
body's hash (even an empty body gets the row `(hash, 0, [])`). -/
theorem writeLoop_any_hash (h data : Bytes) (start endv : Nat) :
    (writeLoop h data start endv).any (fun r => r.hash == h) = true := by
  rw [writeLoop]
  simp only [writeLoopF]
  split <;> simp

/-- After a write, the table holds a chunk row for the body's hash. -/
theorem writeFileData_snd_any (sha : Bytes → Bytes) (t : List FdRow) (b : Bytes) :
    ((Cass.WriteFileData sha t b).2.any (fun r => r.hash == sha b)) = true := by
  simp only [Cass.WriteFileData]
  split
  · next hc => simpa using hc
  · next hc => simp [List.any_append, writeLoop_any_hash]

/-- Unfolding of the insertion loop on `bigInput`: the second chunk is
inserted at offset `BLOBSIZE + 1` — not `BLOBSIZE` — and is empty, so
the byte at index `BLOBSIZE` is never written. -/
theorem writeLoop_bigInput (h : Bytes) :
    writeLoop h bigInput 0 BLOBSIZE =
      [⟨h, 0, List.replicate BLOBSIZE 0⟩, ⟨h, BLOBSIZE + 1, []⟩] := by
  have hB : 0 < BLOBSIZE := by norm_num [BLOBSIZE]
  have hlen : bigInput.length = BLOBSIZE + 1 := by simp [bigInput]
  rw [writeLoop, hlen]
  rw [writeLoopF]
  rw [if_neg (by omega)]
  rw [if_pos (by omega)]
  rw [writeLoopF]
  rw [if_pos (by omega)]
  simp [bigInput, List.take_replicate, Nat.min_def, hB.le, Nat.sub_self]

/-- Case analysis of FindDir: a cache hit returns the cached UUID with
the state unchanged; a failure leaves the state unchanged; a
resolution success returns the terminal UUID and records it in the
UUID cache. -/
theorem findDir_cases (s : CassState) (dir : String) :
    (∃ u, lookupA s.uuidCache dir = some u ∧ Cass.FindDir s dir = (Except.ok u, s)) ∨
    (∃ e, Cass.FindDir s dir = (Except.error e, s)) ∨
    (∃ u, Cass.FindDir s dir = (Except.ok u, { s with uuidCache := (dir, u) :: s.uuidCache })) := by
  simp only [Cass.FindDir]
  split
  · next entry heq => exact Or.inl ⟨entry, heq, rfl⟩
  · refine Or.inr ?_
    split
    · exact Or.inl ⟨_, rfl⟩
    · split
      · exact Or.inl ⟨_, rfl⟩
      · split
        · exact Or.inl ⟨_, rfl⟩
        · exact Or.inr ⟨_, rfl⟩

/-- FindDir can touch only the UUID cache: the resulting state is the
input state with some UUID-cache contents. -/
theorem findDir_state (s : CassState) (dir : String) :
    ∃ c, (Cass.FindDir s dir).2 = { s with uuidCache := c } := by
  rcases findDir_cases s dir with ⟨u, _, h⟩ | ⟨e, h⟩ | ⟨u, h⟩ <;> rw [h]
  · exact ⟨s.uuidCache, rfl⟩
  · exact ⟨s.uuidCache, rfl⟩
  · exact ⟨(dir, u) :: s.uuidCache, rfl⟩

/-- splitPath mutates the state only through FindDir, hence touches at
most the UUID cache. -/
theorem splitPath_state (s : CassState) (p : String) :
    ∃ c, (Cass.splitPath s p).2 = { s with uuidCache := c } := by
  simp only [Cass.splitPath]
  repeat' split
  all_goals first
    | exact findDir_state s _
    | exact ⟨s.uuidCache, rfl⟩

/-- UpdateFile only replaces the record's hash: every other field of
the open-file record, the dirty flag included, is unchanged. -/
theorem updateFile_fst (sha : Bytes → Bytes) (s : CassState) (f : CassFileData) :
    (Cass.UpdateFile sha s f).1 = { f with hash := sha f.data } := by
  simp [Cass.UpdateFile, writeFileData_fst]

/-! ## Claim C1 -/

/-- C1 (code bug): writing a body of length `BLOBSIZE + 1` into an
empty chunk table inserts the chunks `(0, b[0:BLOBSIZE])` and
`(BLOBSIZE + 1, [])` — the offsets advance by `BLOBSIZE + 1`, not
`BLOBSIZE` — and reading the hash back returns only the first
`BLOBSIZE` bytes: the byte at index `BLOBSIZE` is lost, so the
write/read round trip fails for bodies longer than one blob,
whatever the hash function. -/
theorem writeFileData_loses_byte (sha : Bytes → Bytes) :
    (Cass.WriteFileData sha [] bigInput).2 =
      [⟨sha bigInput, 0, List.replicate BLOBSIZE 0⟩, ⟨sha bigInput, BLOBSIZE + 1, []⟩] ∧
    Cass.ReadData (Cass.WriteFileData sha [] bigInput).2 (sha bigInput) =
      List.replicate BLOBSIZE 0 ∧
    bigInput.length = BLOBSIZE + 1 := by
  have hlen : bigInput.length = BLOBSIZE + 1 := by simp [bigInput]
  have htab : (Cass.WriteFileData sha [] bigInput).2 =
      [⟨sha bigInput, 0, List.replicate BLOBSIZE 0⟩, ⟨sha bigInput, BLOBSIZE + 1, []⟩] := by
    simp only [Cass.WriteFileData]
    rw [if_neg (by simp)]
    rw [if_neg (by omega)]
    simp [writeLoop_bigInput]
  refine ⟨htab, ?_, hlen⟩
  rw [htab]
  simp [Cass.ReadData]

/-! ## Claim C2 -/

/-- C2 (code bug): the sparse write `Write("X", 4)` on a fresh empty
file takes the gap-filling branch, which returns early — the body does
become `[0,0,0,0,88]`, but `attr.Size` stays 0 (the claim and the
spec scenario require Size == 5) and the dirty flag stays false (so
the claim's "dirty flag is set" fails and the data would never be
flushed). -/
theorem write_gap_skips_size_and_dirty :
    (CassFileHandle.Write sparseFile [88] 4).1.data = [0, 0, 0, 0, 88] ∧
    (CassFileHandle.Write sparseFile [88] 4).1.attr.size = 0 ∧
    (CassFileHandle.Write sparseFile [88] 4).1.dirty = false ∧
    (CassFileHandle.Write sparseFile [88] 4).2 = (1, Status.OK) := by decide

/-! ## Claim C3 -/

/-- C3 counterexample: Flush on a dirty record reports OK yet leaves
the dirty flag set — the record is not clean immediately after a
successful flush, contrary to the claim. -/
theorem flush_leaves_dirty_set :
    (CassFileHandle.Flush sha1 st0 dirtyFd).1 = Status.OK ∧
    (CassFileHandle.Flush sha1 st0 dirtyFd).2.1.dirty = true := by decide

/-- C3 (amended): Flush on a non-dirty record is a no-op; on a dirty
record it invokes update_file (through FlushFile) and reports OK; in
either case the dirty flag is left exactly as it was — a successful
Flush does not clear it. -/
theorem flush_no_op_and_keeps_dirty (sha : Bytes → Bytes) (s : CassState) (fd : CassFileData) :
    CassFileHandle.Flush sha s fd =
      (if fd.dirty then (Status.OK, Cass.UpdateFile sha s fd) else (Status.OK, fd, s)) ∧
    (CassFileHandle.Flush sha s fd).2.1.dirty = fd.dirty := by
  constructor
  · simp only [CassFileHandle.Flush, CassFs.FlushFile]
    by_cases h : fd.dirty <;> simp [h]
  · simp only [CassFileHandle.Flush, CassFs.FlushFile]
    by_cases h : fd.dirty <;> simp [h, updateFile_fst]

/-! ## Claim C4 -/

/-- C4 (code bug): handle-level `Chmod(0o600)` on a regular file with
mode `0o100644` yields mode `0o600`: the computation
`(old & 0o7000) | mod` erases the `S_IFREG` file-type bit (the claim
requires the type bits preserved and the low 12 bits replaced by
`mod & 0o7777`), and the operation performs no flush. -/
theorem chmod_drops_filetype_bits :
    (CassFileHandle.Chmod chmodFile 0o600).1.attr.mode = 0o600 ∧
    Nat.land (CassFileHandle.Chmod chmodFile 0o600).1.attr.mode S_IFMT = 0 ∧
    (CassFileHandle.Chmod chmodFile 0o600).1.dirty = true ∧
    (CassFileHandle.Chmod chmodFile 0o600).2 = Status.OK := by decide

/-! ## Claim C5 -/

/-- C5 counterexample: flushing a record whose buffered content hashes
to its prior (non-empty) hash still issues a decrement of that very
hash: UpdateFile emits increment-then-decrement of `[1]`, though the
claim says the decrement happens only when the prior hash is distinct
from the new one. -/
theorem updateFile_decrements_unchanged_hash :
    sha1 dirtyFd.data = dirtyFd.hash ∧
    (Cass.UpdateFile sha1 st0 dirtyFd).2.refTrace = [RefOp.inc [1], RefOp.dec [1]] := by decide

/-- C5 (amended): update_file writes the body, replaces the record's
hash by the new hash, updates the namespace row, increments the new
hash's counter and then decrements the prior hash's counter whenever
the prior hash is non-empty — with no regard to whether it equals the
new hash (so flushing unchanged content issues an increment and a
decrement of the same hash, a net zero). -/
theorem updateFile_refops (sha : Bytes → Bytes) (s : CassState) (f : CassFileData) :
    (Cass.UpdateFile sha s f).1.hash = sha f.data ∧
    (Cass.UpdateFile sha s f).2.refTrace =
      s.refTrace ++ [RefOp.inc (sha f.data)] ++
        (if f.hash.length > 0 then [RefOp.dec f.hash] else []) ∧
    (Cass.UpdateFile sha s f).2.fs =
      upsertFs (Cass.splitPath s f.name).2.fs (Cass.splitPath s f.name).1 (sha f.data)
        ⟨f.attr, []⟩ := by
  obtain ⟨c, hc⟩ := splitPath_state s f.name
  refine ⟨?_, ?_, ?_⟩
  · simp [Cass.UpdateFile, writeFileData_fst]
  · simp only [Cass.UpdateFile]
    rw [hc]
    split <;> split <;>
      simp_all [writeFileData_fst]
  · simp only [Cass.UpdateFile]
    split <;> split <;>
      simp_all [writeFileData_fst]

/-! ## Claim C6 -/

/-- C6 counterexample: path-level `Chown("f", 0, 0)` on a file owned by
uid 5 / gid 7 returns OK but leaves the stored row untouched — uid 0
(non-negative) is not applied, contradicting the claim's "replaced
whenever the supplied value is non-negative, including 0". -/
theorem chown_zero_not_applied :
    (CassFs.Chown opts0 st1 "f" 0 0).1 = Status.OK ∧
    lookupA (CassFs.Chown opts0 st1 "f" 0 0).2.2.fs ("", "f") =
      some (FsVal.found [] ⟨attr57, []⟩) := by decide

/-- C6 (amended): for a non-root path whose metadata loads, Chown
replaces the stored uid (resp. gid) only when the supplied uint32
value read as a signed 32-bit integer is strictly positive — zero and
values at or above 2^31 leave the field unchanged — and persists the
mutated metadata with write_metadata. -/
theorem chown_strictly_positive (opts : CassFsOptions) (s : CassState) (name : String)
    (uid gid : Nat) (meta : CassFsMetadata) (s1 : CassState)
    (hname : name ≠ "") (hget : Cass.GetFiledata s name = (Except.ok meta, s1)) :
    CassFs.Chown opts s name uid gid =
      (Status.OK, opts,
        Cass.WriteMetadata s1 name
          { meta.metadata with attr :=
              { meta.metadata.attr with
                uid := if 0 < goInt32 uid then uid else meta.metadata.attr.uid,
                gid := if 0 < goInt32 gid then gid else meta.metadata.attr.gid } }) := by
  simp only [CassFs.Chown, if_neg hname, hget]
  by_cases h1 : 0 < goInt32 uid <;> by_cases h2 : 0 < goInt32 gid <;> simp [h1, h2]

/-- Witness: Chown with uid 9 (strictly positive as int32) on the
stored file applies the uid and persists it via WriteMetadata. -/
theorem chown_strictly_positive_witness :
    CassFs.Chown opts0 st1 "f" 9 0 =
      (Status.OK, opts0,
        Cass.WriteMetadata (Cass.GetFiledata st1 "f").2 "f"
          ⟨{ mode := 0o100644, size := 0, uid := 9, gid := 7 }, []⟩) := by
  have h := chown_strictly_positive opts0 st1 "f" 9 0
      ⟨⟨attr57, []⟩, 0, []⟩ (Cass.GetFiledata st1 "f").2 (by decide) (by rfl)
  exact h.trans (by decide)

/-! ## Claim C7 -/

/-- C7 counterexample: on a cold cache over an empty store, find_dir
of the root path "" does not resolve to "" without error — it walks
like any other path, queries the row (directory "", name "") and
fails with NotFound. -/
theorem findDir_root_not_special :
    Cass.FindDir st0 "" = (Except.error DbErr.notFound, st0) := by rfl

/-- C7 (amended): find_dir has no special case for the root path ""
(bootstrap NotFound makes it fail like any other path); for every
path, a missing segment — the bootstrap segment or any later one —
makes find_dir fail with NotFound; and whenever find_dir succeeds the
terminal UUID is stored in the positive directory-UUID cache under
the full path. -/
theorem findDir_missing_and_caching :
    (∀ s dir, lookupA s.uuidCache dir = none →
        Cass.queryFsHash s "" ((goSplit dir '/').headD "") = Except.error DbErr.notFound →
        Cass.FindDir s dir = (Except.error DbErr.notFound, s)) ∧
    (∀ s parent d rest, Cass.queryFsHash s parent d = Except.error DbErr.notFound →
        Cass.findDirLoop s parent (d :: rest) = Except.error DbErr.notFound) ∧
    (∀ s dir u, (Cass.FindDir s dir).1 = Except.ok u →
        lookupA (Cass.FindDir s dir).2.uuidCache dir = some u) := by
  refine ⟨?_, ?_, ?_⟩
  · intro s dir h1 h2
    simp only [Cass.FindDir, h1]
    rw [h2]
  · intro s parent d rest h
    simp only [Cass.findDirLoop]
    rw [h]
  · intro s dir u
    rcases findDir_cases s dir with ⟨u0, hcache, heq⟩ | ⟨e, heq⟩ | ⟨u0, heq⟩ <;> rw [heq]
    · intro h
      replace h : (Except.ok u0 : Except DbErr String) = Except.ok u := h
      injection h with h2
      subst h2
      exact hcache
    · intro h
      replace h : (Except.error e : Except DbErr String) = Except.ok u := h
      exact Except.noConfusion h
    · intro h
      replace h : (Except.ok u0 : Except DbErr String) = Except.ok u := h
      injection h with h2
      subst h2
      simp [lookupA]

/-- Witness: the missing-bootstrap case at the empty store, a missing
later segment for the loop, and the caching of an already-cached
terminal UUID, each by applying the amended theorem at a concrete
input. -/
theorem findDir_missing_and_caching_witness :
    Cass.FindDir st0 "x" = (Except.error DbErr.notFound, st0) ∧
    Cass.findDirLoop st0 "p" ["d"] = Except.error DbErr.notFound ∧
    lookupA (Cass.FindDir stCache "d").2.uuidCache "d" = some "u" :=
  ⟨findDir_missing_and_caching.1 st0 "x" (by rfl) (by rfl),
   findDir_missing_and_caching.2.1 st0 "p" "d" [] (by rfl),
   findDir_missing_and_caching.2.2 stCache "d" "u" (by rfl)⟩

/-! ## Claim C8 -/

/-- C8: for every byte string b, two successive calls to write_body(b)
return the same hash (the hash of b), and the second call performs no
chunk inserts: its pre-probe finds a chunk row with that hash — either
inserted by the first call or already present — and it returns
immediately with the table unchanged. -/
theorem writeFileData_idempotent (sha : Bytes → Bytes) (t : List FdRow) (b : Bytes) :
    (Cass.WriteFileData sha t b).1 = sha b ∧
    Cass.WriteFileData sha (Cass.WriteFileData sha t b).2 b
      = (sha b, (Cass.WriteFileData sha t b).2) :=
  ⟨writeFileData_fst sha t b,
   writeFileData_probe_hit sha _ b (writeFileData_snd_any sha t b)⟩

/-! ## Claim C9 -/

/-- C9: GetAttr("") always succeeds, synthesizing a directory
attribute from the mount options with the state untouched (for every
store state, so no database access is involved); for a non-root path
the status is ENOENT exactly when the metadata lookup fails with the
database's NotFound error, EIO on any other error, and on success the
looked-up attribute is returned. -/
theorem getAttr_error_mapping (opts : CassFsOptions) (s : CassState) (p : String) :
    (CassFs.GetAttr opts s "" =
      ((some { mode := S_IFDIR ||| opts.mode, size := 0, uid := opts.uid, gid := opts.gid },
        Status.OK), s)) ∧
    (p ≠ "" →
      (((CassFs.GetAttr opts s p).1.2 = Status.ENOENT) ↔
        (Cass.GetFiledata s p).1 = Except.error DbErr.notFound)) ∧
    (p ≠ "" → (Cass.GetFiledata s p).1 = Except.error DbErr.other →
      (CassFs.GetAttr opts s p).1.2 = Status.EIO) ∧
    (p ≠ "" → ∀ m, (Cass.GetFiledata s p).1 = Except.ok m →
      (CassFs.GetAttr opts s p).1 = (some m.metadata.attr, Status.OK)) := by
  refine ⟨by simp [CassFs.GetAttr], ?_, ?_, ?_⟩
  · intro hp
    simp only [CassFs.GetAttr, if_neg hp]
    rcases hg : Cass.GetFiledata s p with ⟨r, s1⟩
    match r with
    | Except.error DbErr.notFound => simp
    | Except.error DbErr.other => simp
    | Except.ok m => simp
  · intro hp hg
    simp only [CassFs.GetAttr, if_neg hp]
    rcases hg2 : Cass.GetFiledata s p with ⟨r, s1⟩
    rw [hg2] at hg
    simp only at hg
    subst hg
    rfl
  · intro hp m hg
    simp only [CassFs.GetAttr, if_neg hp]
    rcases hg2 : Cass.GetFiledata s p with ⟨r, s1⟩
    rw [hg2] at hg
    simp only at hg
    subst hg
    rfl

/-- Witness: the ENOENT iff at a file absent from the store, the EIO
case at a store whose row read fails transiently, and the root
synthesis, each by applying the error-mapping theorem at a concrete
input. -/
theorem getAttr_error_mapping_witness :
    (((CassFs.GetAttr opts0 st0 "f").1.2 = Status.ENOENT) ↔
      (Cass.GetFiledata st0 "f").1 = Except.error DbErr.notFound) ∧
    (CassFs.GetAttr opts0 stErr "f").1.2 = Status.EIO ∧
    CassFs.GetAttr opts0 st0 "" =
      ((some { mode := S_IFDIR ||| opts0.mode, size := 0, uid := opts0.uid, gid := opts0.gid },
        Status.OK), st0) :=
  ⟨(getAttr_error_mapping opts0 st0 "f").2.1 (by decide),
   (getAttr_error_mapping opts0 stErr "f").2.2.1 (by decide) (by rfl),
   (getAttr_error_mapping opts0 st0 "f").1⟩

/-! ## Claim C10 -/

/-- C10: handle `Read` and `Truncate` are partial at the public
interface: for a body of length n, `Read(buf, off)` slices out of
bounds (panics) exactly when `off > n`, and `Truncate(size)` exactly
when `size > n`; under the preconditions `off ≤ n` and `size ≤ n`
both are total. -/
theorem read_truncate_partial (fd : CassFileData) (bufLen off size : Nat) :
    (CassFileHandle.Read fd bufLen off = none ↔ off > fd.data.length) ∧
    (CassFileHandle.Truncate fd size = none ↔ size > fd.data.length) := by
  have h1 : CassFileHandle.Read fd bufLen off = none ↔ off > fd.data.length := by
    simp only [CassFileHandle.Read, goSlice]
    split_ifs with h h2 h3 <;> simp <;> omega
  have h2 : CassFileHandle.Truncate fd size = none ↔ size > fd.data.length := by
    simp only [CassFileHandle.Truncate, goSlice]
    split_ifs with h <;> simp <;> omega
  exact ⟨h1, h2⟩
